import Mathlib

/-!
# Verification of the lania-tools axios request-orchestration core

A shallow embedding, in Lean 4, of the request-processing core of the
`lania-tools` library (packages/tools/src/axios), together with theorems
settling the frozen claims C1..C10 about it.

Each definition is translated from a specific source location, named in its
doc comment.  JavaScript machine-level details are modelled as follows:

* JSON values are the inductive `Json` (objects are association lists in
  insertion order, as JavaScript objects enumerate string keys in insertion
  order for non-index keys);
* JavaScript truthiness of a JSON value is `jsTruthy`;
* `Date.now()` is an explicit `now : Nat` argument threaded through the
  stateful models;
* promise-based control flow is modelled by `Except`-valued functions, and
  the axios interceptor chain (request pair, dispatch, wrapper response
  pair, user response pair) by the explicit sequencing of `instanceRun`;
* `Array.prototype.sort` on string keys is stable and compares by UTF-16
  code units; it is modelled by `List.insertionSort` on the key component,
  which is stable and agrees with any stable sort under the same comparator.
-/

namespace LaniaTools

/-- JSON-like values as manipulated by the library: request `params` and
`data` fields.  `obj` keeps fields in insertion order, as a JavaScript
object does for string keys. -/
inductive Json where
  | null : Json
  | bool (b : Bool) : Json
  | num (n : Int) : Json
  | str (s : String) : Json
  | arr (xs : List Json) : Json
  | obj (fs : List (String × Json)) : Json

/-- JavaScript truthiness of a `Json` value (`null`, `false`, `0`, `""` are
falsy; every object and array is truthy). -/
def jsTruthy : Json → Bool
  | .null => false
  | .bool b => b
  | .num n => n != 0
  | .str s => s != ""
  | .arr _ => true
  | .obj _ => true

/-- `JSON.stringify` of a string: the quoted text.  (Escaping of special
characters is not modelled; no claim depends on it.) -/
def jsonQuote (s : String) : String := "\"" ++ s ++ "\""

/-- Comparison of (key, rendered value) pairs by key, the order used by
`keys.sort()` (JavaScript default string sort: code-unit lexicographic). -/
abbrev keyLE : (String × String) → (String × String) → Prop := fun p q => p.1 ≤ q.1

/-- Sort a list of (key, rendered value) pairs by key, ascending, stably —
the model of `keys.sort()` in `stableStringify`
(md5-calculator.worker.ts, line 59). -/
def sortPairs (l : List (String × String)) : List (String × String) :=
  l.insertionSort keyLE

/-- Emit `{"k1":v1,"k2":v2,...}` from sorted (key, rendered value) pairs —
the model of the loop in `stableStringify` (md5-calculator.worker.ts,
lines 62-72), which pushes `"key":value` parts for the sorted keys and
joins them with commas inside braces. -/
def renderPairs (ps : List (String × String)) : String :=
  "\x7b" ++ String.intercalate "," ((sortPairs ps).map (fun q => "\"" ++ q.1 ++ "\":" ++ q.2)) ++ "\x7d"

mutual
/-- `stableStringify` from md5-calculator.worker.ts (lines 49-73): for
non-objects and `null` it falls back to `JSON.stringify`; for anything of
JavaScript type `object` (which includes arrays, whose `Object.keys` are
the decimal index strings) it enumerates own keys, sorts them, and emits
`"key":stableStringify(value)` pairs inside braces. -/
def stableStringify : Json → String
  | .null => "null"
  | .bool true => "true"
  | .bool false => "false"
  | .num n => toString n
  | .str s => jsonQuote s
  | .arr xs => renderPairs (idxFields 0 xs)
  | .obj fs => renderPairs (renderFields fs)

/-- Rendering of the fields of an object for `stableStringify`: each value
is recursively rendered, keys kept (sorting happens in `renderPairs`). -/
def renderFields : List (String × Json) → List (String × String)
  | [] => []
  | (k, v) :: rest => (k, stableStringify v) :: renderFields rest

/-- Rendering of the elements of an array for `stableStringify`: element
`i` becomes the pair (`toString i`, rendered element), because
`Object.keys` of a JavaScript array yields the decimal index strings. -/
def idxFields : Nat → List Json → List (String × String)
  | _, [] => []
  | i, v :: rest => (toString i, stableStringify v) :: idxFields (i + 1) rest
end

mutual
/-- Plain `JSON.stringify` as used by `CacheManager.getCacheKey`
(CacheManager.ts, lines 14-15): objects are serialised with their keys in
insertion order, arrays as `[...]` lists. -/
def plainStringify : Json → String
  | .null => "null"
  | .bool true => "true"
  | .bool false => "false"
  | .num n => toString n
  | .str s => jsonQuote s
  | .arr xs => "[" ++ String.intercalate "," (plainElems xs) ++ "]"
  | .obj fs => "\x7b" ++ String.intercalate "," (plainFields fs) ++ "\x7d"

/-- Field rendering for `plainStringify`: `"key":value` in insertion order. -/
def plainFields : List (String × Json) → List String
  | [] => []
  | (k, v) :: rest => ("\"" ++ k ++ "\":" ++ plainStringify v) :: plainFields rest

/-- Element rendering for `plainStringify`. -/
def plainElems : List Json → List String
  | [] => []
  | v :: rest => plainStringify v :: plainElems rest
end

/-- `String.prototype.toLowerCase` for ASCII method names: characterwise
lower-casing (executable model of the `toLowerCase()` call in
`generateRequestKey`). -/
def jsToLower (s : String) : String := String.mk (s.data.map Char.toLower)

/-- The part of an axios request config that the key derivations read:
`method`, `url`, `params`, `data`.  Absent fields are `none`. -/
structure ReqConfig where
  method : Option String
  url : Option String
  params : Option Json
  data : Option Json

/-- `generateRequestKey` from md5-calculator.worker.ts (lines 83-100):
`method.toLowerCase()` defaulting to `get` when `method` is falsy, the url
(or empty), and `stableStringify` of params/data when they are truthy,
joined as `method:url:params:data`. -/
def generateRequestKey (req : ReqConfig) : String :=
  let method := match req.method with
    | some m => if m = "" then "get" else jsToLower m
    | none => "get"
  let url := req.url.getD ""
  let params := match req.params with
    | some p => if jsTruthy p then stableStringify p else ""
    | none => ""
  let data := match req.data with
    | some d => if jsTruthy d then stableStringify d else ""
    | none => ""
  method ++ ":" ++ url ++ ":" ++ params ++ ":" ++ data

/-- `CacheManager.getCacheKey` (CacheManager.ts, lines 10-17): same shape,
but the method is not lower-cased and params/data are serialised with plain
`JSON.stringify` (insertion order). -/
def getCacheKey (req : ReqConfig) : String :=
  let method := match req.method with
    | some m => if m = "" then "get" else m
    | none => "get"
  let url := req.url.getD ""
  let params := match req.params with
    | some p => if jsTruthy p then plainStringify p else ""
    | none => ""
  let data := match req.data with
    | some d => if jsTruthy d then plainStringify d else ""
    | none => ""
  method ++ ":" ++ url ++ ":" ++ params ++ ":" ++ data

/-!
## Claim C1: key stability under permutation of mapping keys

`JPerm a b` says that `b` is obtained from `a` by permuting the keys of
mappings, recursively: congruence on array elements and object fields,
adjacent transposition of two fields with distinct keys, reflexivity and
transitivity.  (JavaScript objects cannot hold two fields with the same
key, so the distinctness side condition of `objSwap` is not a restriction.)
-/

/-- Recursive key-permutation between JSON values. -/
inductive JPerm : Json → Json → Prop where
  | jrefl (j : Json) : JPerm j j
  | jtrans {a b c : Json} : JPerm a b → JPerm b c → JPerm a c
  | arrCons {x y : Json} {xs ys : List Json} :
      JPerm x y → JPerm (.arr xs) (.arr ys) → JPerm (.arr (x :: xs)) (.arr (y :: ys))
  | objCons (k : String) {v w : Json} {fs gs : List (String × Json)} :
      JPerm v w → JPerm (.obj fs) (.obj gs) →
      JPerm (.obj ((k, v) :: fs)) (.obj ((k, w) :: gs))
  | objSwap {k₁ k₂ : String} (v₁ v₂ : Json) (l : List (String × Json)) :
      k₁ ≠ k₂ → JPerm (.obj ((k₁, v₁) :: (k₂, v₂) :: l)) (.obj ((k₂, v₂) :: (k₁, v₁) :: l))

/-- Key-permutation on optional JSON values (absent stays absent). -/
inductive OptJPerm : Option Json → Option Json → Prop where
  | onone : OptJPerm none none
  | osome {p q : Json} : JPerm p q → OptJPerm (some p) (some q)

/-- Inserting two pairs with distinct keys into a key-sorted list is
order-independent. -/
theorem orderedInsert_key_comm_lt (a b : String × String) (hlt : a.1 < b.1) :
    ∀ l : List (String × String),
    List.orderedInsert keyLE a (List.orderedInsert keyLE b l)
      = List.orderedInsert keyLE b (List.orderedInsert keyLE a l) := by
  have hab : a.1 ≤ b.1 := le_of_lt hlt
  have hba : ¬ b.1 ≤ a.1 := not_le_of_lt hlt
  intro l
  induction l with
  | nil => simp [List.orderedInsert, keyLE, hab, hba]
  | cons c l ih =>
    by_cases hac : a.1 ≤ c.1
    · by_cases hbc : b.1 ≤ c.1
      · simp [List.orderedInsert, keyLE, hab, hba, hac, hbc]
      · simp [List.orderedInsert, keyLE, hab, hba, hac, hbc]
    · have hca : c.1 < a.1 := lt_of_not_le hac
      have hbc : ¬ b.1 ≤ c.1 := not_le_of_lt (hca.trans hlt)
      simp [List.orderedInsert, keyLE, hac, hbc, ih]

/-- Symmetric closure of `orderedInsert_key_comm_lt`. -/
theorem orderedInsert_key_comm (a b : String × String) (h : a.1 ≠ b.1)
    (l : List (String × String)) :
    List.orderedInsert keyLE a (List.orderedInsert keyLE b l)
      = List.orderedInsert keyLE b (List.orderedInsert keyLE a l) := by
  rcases lt_or_gt_of_ne h with hlt | hgt
  · exact orderedInsert_key_comm_lt a b hlt l
  · exact (orderedInsert_key_comm_lt b a hgt l).symm

/-- `sortPairs` is insertion at the head. -/
theorem sortPairs_cons (p : String × String) (l : List (String × String)) :
    sortPairs (p :: l) = List.orderedInsert keyLE p (sortPairs l) := rfl

/-- `JPerm` relates values built from the same constructor. -/
theorem jperm_shape {a b : Json} (h : JPerm a b) :
    (∀ xs, a = Json.arr xs → ∃ ys, b = Json.arr ys)
      ∧ (∀ fs, a = Json.obj fs → ∃ gs, b = Json.obj gs) := by
  induction h with
  | jrefl j => exact ⟨fun xs hx => ⟨xs, hx⟩, fun fs hf => ⟨fs, hf⟩⟩
  | jtrans h₁ h₂ ih₁ ih₂ =>
      refine ⟨fun xs hx => ?_, fun fs hf => ?_⟩
      · obtain ⟨zs, hz⟩ := ih₁.1 xs hx
        exact ih₂.1 zs hz
      · obtain ⟨zs, hz⟩ := ih₁.2 fs hf
        exact ih₂.2 zs hz
  | arrCons hxy hxs ih₁ ih₂ => exact ⟨fun xs hx => ⟨_, rfl⟩, fun fs hf => by simp at hf⟩
  | objCons k hvw hfs ih₁ ih₂ => exact ⟨fun xs hx => by simp at hx, fun fs hf => ⟨_, rfl⟩⟩
  | objSwap v₁ v₂ l hne => exact ⟨fun xs hx => by simp at hx, fun fs hf => ⟨_, rfl⟩⟩

/-- Key permutation does not change truthiness. -/
theorem jperm_truthy {a b : Json} (h : JPerm a b) : jsTruthy a = jsTruthy b := by
  induction h with
  | jrefl j => rfl
  | jtrans h₁ h₂ ih₁ ih₂ => exact ih₁.trans ih₂
  | arrCons hxy hxs ih₁ ih₂ => rfl
  | objCons k hvw hfs ih₁ ih₂ => rfl
  | objSwap v₁ v₂ l hne => rfl

/-- Core invariance: `stableStringify` is unchanged by recursive key
permutation (stated together with the strengthened statements about array
and object field rendering needed for the induction). -/
theorem jperm_invariance {a b : Json} (h : JPerm a b) :
    stableStringify a = stableStringify b
      ∧ (∀ i xs ys, a = Json.arr xs → b = Json.arr ys → idxFields i xs = idxFields i ys)
      ∧ (∀ fs gs, a = Json.obj fs → b = Json.obj gs →
          sortPairs (renderFields fs) = sortPairs (renderFields gs)) := by
  induction h with
  | jrefl j =>
      refine ⟨rfl, fun i xs ys hx hy => ?_, fun fs gs hf hg => ?_⟩
      · cases hx; cases hy; rfl
      · cases hf; cases hg; rfl
  | jtrans h₁ h₂ ih₁ ih₂ =>
      refine ⟨ih₁.1.trans ih₂.1, fun i xs ys hx hy => ?_, fun fs gs hf hg => ?_⟩
      · obtain ⟨zs, hz⟩ := (jperm_shape h₁).1 xs hx
        exact (ih₁.2.1 i xs zs hx hz).trans (ih₂.2.1 i zs ys hz hy)
      · obtain ⟨zs, hz⟩ := (jperm_shape h₁).2 fs hf
        exact (ih₁.2.2 fs zs hf hz).trans (ih₂.2.2 zs gs hz hg)
  | arrCons hxy hxs ih₁ ih₂ =>
      rename_i x y xs ys
      have hidx : ∀ i, idxFields i (x :: xs) = idxFields i (y :: ys) := fun i => by
        simp only [idxFields]
        rw [ih₁.1, ih₂.2.1 (i + 1) _ _ rfl rfl]
      refine ⟨?_, fun i xs ys hx hy => ?_, fun fs gs hf hg => by simp at hf⟩
      · simp only [stableStringify]
        rw [hidx 0]
      · cases hx; cases hy; exact hidx i
  | objCons k hvw hfs ih₁ ih₂ =>
      rename_i v w fs gs
      have hsp : sortPairs (renderFields ((k, v) :: fs)) = sortPairs (renderFields ((k, w) :: gs)) := by
        simp only [renderFields, sortPairs_cons]
        rw [ih₁.1, ih₂.2.2 _ _ rfl rfl]
      refine ⟨?_, fun i xs ys hx hy => by simp at hx, fun fs gs hf hg => ?_⟩
      · simp only [stableStringify, renderPairs]
        rw [hsp]
      · cases hf; cases hg; exact hsp
  | objSwap v₁ v₂ l hne =>
      rename_i k₁ k₂
      have hsp : sortPairs (renderFields ((k₁, v₁) :: (k₂, v₂) :: l))
          = sortPairs (renderFields ((k₂, v₂) :: (k₁, v₁) :: l)) := by
        simp only [renderFields, sortPairs_cons]
        exact orderedInsert_key_comm _ _ hne _
      refine ⟨?_, fun i xs ys hx hy => by simp at hx, fun fs gs hf hg => ?_⟩
      · simp only [stableStringify, renderPairs]
        rw [hsp]
      · cases hf; cases hg; exact hsp

/-- `stableStringify` alone is invariant under recursive key permutation. -/
theorem stableStringify_jperm {a b : Json} (h : JPerm a b) :
    stableStringify a = stableStringify b :=
  (jperm_invariance h).1

/-- C1 (amended).  The coalescer's key derivation `generateRequestKey` is
invariant under every recursive permutation of the keys of the `params`
and `data` mappings, and the spec's distinctness example holds for it:
requests with params `a:1` and `a:2` obtain different keys.  (The cache's
derivation `getCacheKey` is *not* permutation invariant; see the
counterexample theorem.) -/
theorem claim_C1_requestKey_stability (r₁ r₂ : ReqConfig)
    (hm : r₁.method = r₂.method) (hu : r₁.url = r₂.url)
    (hp : OptJPerm r₁.params r₂.params) (hd : OptJPerm r₁.data r₂.data) :
    generateRequestKey r₁ = generateRequestKey r₂
      ∧ generateRequestKey ⟨some "get", some "/api", some (.obj [("a", .num 1)]), none⟩
          ≠ generateRequestKey ⟨some "get", some "/api", some (.obj [("a", .num 2)]), none⟩ := by
  constructor
  · obtain ⟨m₁, u₁, p₁, d₁⟩ := r₁
    obtain ⟨m₂, u₂, p₂, d₂⟩ := r₂
    simp only at hm hu hp hd
    subst hm
    subst hu
    unfold generateRequestKey
    cases hp with
    | onone =>
      cases hd with
      | onone => rfl
      | osome hdq => simp only [jperm_truthy hdq, stableStringify_jperm hdq]
    | osome hpq =>
      cases hd with
      | onone => simp only [jperm_truthy hpq, stableStringify_jperm hpq]
      | osome hdq =>
        simp only [jperm_truthy hpq, stableStringify_jperm hpq,
          jperm_truthy hdq, stableStringify_jperm hdq]
  · simp [generateRequestKey, jsTruthy, stableStringify, renderFields, renderPairs,
      sortPairs, jsonQuote, jsToLower]
    decide

/-- Witness for C1: the spec's own example instance.  The permuted params
mappings `a:1,b:2` and `b:2,a:1` obtain equal keys from
`generateRequestKey`, and the distinctness example holds. -/
theorem claim_C1_requestKey_stability_witness :
    generateRequestKey ⟨some "get", some "/api", some (.obj [("a", .num 1), ("b", .num 2)]), none⟩
        = generateRequestKey ⟨some "get", some "/api", some (.obj [("b", .num 2), ("a", .num 1)]), none⟩
      ∧ generateRequestKey ⟨some "get", some "/api", some (.obj [("a", .num 1)]), none⟩
          ≠ generateRequestKey ⟨some "get", some "/api", some (.obj [("a", .num 2)]), none⟩ :=
  claim_C1_requestKey_stability
    ⟨some "get", some "/api", some (.obj [("a", .num 1), ("b", .num 2)]), none⟩
    ⟨some "get", some "/api", some (.obj [("b", .num 2), ("a", .num 1)]), none⟩
    rfl rfl
    (OptJPerm.osome (JPerm.objSwap (.num 1) (.num 2) [] (by decide)))
    OptJPerm.onone

/-- Counterexample for C1 as stated: the key derivation used by the cache,
`CacheManager.getCacheKey`, is *not* invariant under permutation of the
params mapping keys — the spec's own example `a:1,b:2` versus `b:2,a:1`
yields two different cache keys, because `getCacheKey` serialises with
plain `JSON.stringify` in insertion order. -/
theorem claim_C1_counterexample :
    getCacheKey ⟨some "get", some "/api", some (.obj [("a", .num 1), ("b", .num 2)]), none⟩
      ≠ getCacheKey ⟨some "get", some "/api", some (.obj [("b", .num 2), ("a", .num 1)]), none⟩ := by
  simp [getCacheKey, jsTruthy, plainStringify, plainFields, jsonQuote]
  decide

/-!
## The cache (CacheManager.ts)

The backing `Map` is modelled as an association list in insertion order
with replace-on-set, which is how a JavaScript `Map` behaves under `get`,
`set` and `delete`.
-/

/-- A cache entry: the stored value and an optional absolute expiry
instant (CacheManager.ts, lines 3-6; `expireAt` is `undefined` when the
entry never expires). -/
structure CacheEntry (γ : Type) where
  data : γ
  expireAt : Option Nat

/-- JavaScript `Map.prototype.set`: replace in place if the key exists,
append otherwise. -/
def mapSet {α : Type} : List (String × α) → String → α → List (String × α)
  | [], k, v => [(k, v)]
  | (k', v') :: rest, k, v =>
      if k' = k then (k, v) :: rest else (k', v') :: mapSet rest k v

/-- JavaScript `Map.prototype.get`. -/
def mapGet {α : Type} : List (String × α) → String → Option α
  | [], _ => none
  | (k', v') :: rest, k => if k' = k then some v' else mapGet rest k

/-- JavaScript `Map.prototype.delete`. -/
def mapDelete {α : Type} : List (String × α) → String → List (String × α)
  | [], _ => []
  | (k', v') :: rest, k => if k' = k then rest else (k', v') :: mapDelete rest k

namespace CacheManager

/-- `CacheManager.set` (CacheManager.ts, lines 29-39): store under the
derived key with `expireAt: ttl ? Date.now() + ttl : undefined` — a `ttl`
of `0` is falsy in JavaScript, so it yields `undefined`, exactly like an
omitted `ttl`. -/
def set {γ : Type} (c : List (String × CacheEntry γ)) (config : ReqConfig) (d : γ)
    (ttl : Option Nat) (now : Nat) : List (String × CacheEntry γ) :=
  let key := getCacheKey config
  mapSet c key ⟨d, match ttl with
    | some t => if t = 0 then none else some (now + t)
    | none => none⟩

/-- `CacheManager.get` (CacheManager.ts, lines 18-27): a present entry is
returned while `!entry.expireAt || entry.expireAt > Date.now()`; an
expired entry is deleted and a miss reported.  Returns the result and the
possibly-shrunk store. -/
def get {γ : Type} (c : List (String × CacheEntry γ)) (config : ReqConfig)
    (now : Nat) : Option γ × List (String × CacheEntry γ) :=
  let key := getCacheKey config
  match mapGet c key with
  | some entry =>
      match entry.expireAt with
      | none => (some entry.data, c)
      | some t => if now < t then (some entry.data, c) else (none, mapDelete c key)
  | none => (none, c)

/-- `CacheManager.clear` (CacheManager.ts, lines 41-43). -/
def clear {γ : Type} (_ : List (String × CacheEntry γ)) : List (String × CacheEntry γ) := []

end CacheManager

/-- Looking up a key immediately after writing it finds the written entry. -/
theorem mapGet_mapSet {α : Type} (m : List (String × α)) (k : String) (v : α) :
    mapGet (mapSet m k v) k = some v := by
  induction m with
  | nil => simp [mapSet, mapGet]
  | cons p rest ih =>
      by_cases h : p.1 = k
      · simp [mapSet, mapGet, h]
      · simp [mapSet, mapGet, h, ih]

/-- C10.  `CacheManager.set` with a TTL of `0` stores an entry with no
expiry instant, exactly as if the TTL had been omitted, and a later
`CacheManager.get` of the same request returns the stored body at every
future time (`0` is falsy in JavaScript, so `ttl ? Date.now() + ttl :
undefined` yields `undefined`). -/
theorem claim_C10_zero_ttl {γ : Type} (c : List (String × CacheEntry γ))
    (config : ReqConfig) (d : γ) (now : Nat) :
    CacheManager.set c config d (some 0) now = CacheManager.set c config d none now
      ∧ ∀ later : Nat,
          (CacheManager.get (CacheManager.set c config d (some 0) now) config later).1 = some d := by
  constructor
  · rfl
  · intro later
    simp [CacheManager.get, CacheManager.set, mapGet_mapSet]

/-!
## The coalescer (DebounceThrottleManager.ts, keyed revision)

`debounceRequest` (lines 132-151) keeps, per request key, one pending
`(resolve, reject, timer)` triple.  A burst of arrivals for one key inside
the delay window is modelled as a list processed in submission order: the
timer never fires between two arrivals of the burst (each arrival calls
`clearTimeout` on the pending timer before rejecting it).
-/

/-- The four cancellation tags of the library's Cancelled errors
(`DebounceThrottleCancelError.type`, plus manual cancellation and
`clear`'s manager-cleared rejection). -/
inductive CancelKind where
  | debounce
  | throttle
  | manual
  | managerCleared
deriving DecidableEq

/-- One arrival of `debounceRequest` for a fixed key while no timer fires
(DebounceThrottleManager.ts, lines 134-150): the pending request, if any,
is rejected with a Cancelled error tagged `debounce`
(`DebounceThrottleCancelError('Request canceled by debounce', 'debounce')`)
and the arrival replaces it as the pending one. -/
def debounceArrive {α : Type} (pending : Option α) (req : α) :
    List (α × CancelKind) × Option α :=
  match pending with
  | some p => ([(p, CancelKind.debounce)], some req)
  | none => ([], some req)

/-- A burst of same-key arrivals inside one delay window, processed in
submission order; returns the rejections (in the order they were issued)
and the finally pending request, which the timer fire then resolves
(lines 144-147). -/
def debounceRun {α : Type} : Option α → List α → List (α × CancelKind) × Option α
  | pending, [] => ([], pending)
  | pending, r :: rest =>
      let step := debounceArrive pending r
      let next := debounceRun step.2 rest
      (step.1 ++ next.1, next.2)

/-- Helper for C6: a burst starting with a pending request rejects that
request first, then everything but the last arrival, and leaves the last
arrival pending. -/
theorem debounceRun_some {α : Type} (p : α) (rest : List α) :
    debounceRun (some p) rest
      = (((p :: rest).dropLast).map (fun r => (r, CancelKind.debounce)),
          some ((p :: rest).getLast (List.cons_ne_nil p rest))) := by
  induction rest generalizing p with
  | nil => simp [debounceRun]
  | cons q rest ih =>
      simp only [debounceRun, debounceArrive]
      rw [ih q]
      simp [List.getLast_cons]

/-- C6.  For every burst of debounced requests sharing one key inside the
delay window, each arrival rejects the previously pending request with a
Cancelled error tagged `debounce`; the rejections appear in submission
order, every arrival except the last is rejected, and the single timer
fire resolves exactly the last arrival's request. -/
theorem claim_C6_debounce_last_wins {α : Type} (reqs : List α) (h : reqs ≠ []) :
    (debounceRun none reqs).1
        = (reqs.dropLast).map (fun r => (r, CancelKind.debounce))
      ∧ (debounceRun none reqs).2 = some (reqs.getLast h) := by
  match reqs, h with
  | r :: rest, _ =>
      simp only [debounceRun, debounceArrive]
      rw [debounceRun_some r rest]
      exact ⟨rfl, rfl⟩

/-- Witness for C6: five requests `1..5` in one window yield four
debounce rejections in submission order and resolve the fifth. -/
theorem claim_C6_debounce_last_wins_witness :
    (debounceRun none [1, 2, 3, 4, 5]).1
        = [(1, CancelKind.debounce), (2, CancelKind.debounce),
            (3, CancelKind.debounce), (4, CancelKind.debounce)]
      ∧ (debounceRun none [1, 2, 3, 4, 5]).2 = some 5 := by
  have h := claim_C6_debounce_last_wins [1, 2, 3, 4, 5] (by decide)
  simpa using h

/-!
## The concurrency controller (GlobalConcurrencyController.ts, queued
revision, lines 1-96)

The controller is modelled as a state machine driven by two events:
submission of a task (`run`, which either starts it or queues it) and
settlement of a running task (the `finally` block, which decrements the
count and calls `scheduleNext`).  JavaScript run-to-completion makes each
of these atomic.  Task ids are handed out in submission order, so the
FIFO property is id-sortedness of the start log.
-/

/-- State of `GlobalConcurrencyController` (GlobalConcurrencyController.ts,
lines 13-25), extended with the bookkeeping the statements need: `running`
is the list of currently-executing task ids, `started` the log of task
starts in order, `nextId` the id the next submission receives (ids are
handed out in submission order, so id order is submission order). -/
structure GlobalConcurrencyController where
  maxConcurrent : Nat
  activeCount : Nat
  queue : List Nat
  running : List Nat
  started : List Nat
  nextId : Nat

namespace GlobalConcurrencyController

/-- `executeTask` (GlobalConcurrencyController.ts, lines 47-66): increment
the active count and begin the task; its settlement is a separate
`settle` event. -/
def executeTask (s : GlobalConcurrencyController) (id : Nat) : GlobalConcurrencyController :=
  { s with activeCount := s.activeCount + 1, running := id :: s.running,
           started := s.started ++ [id] }

/-- `scheduleNext` (lines 30-42): if the queue is non-empty and a slot is
free, shift the first queued task and execute it. -/
def scheduleNext (s : GlobalConcurrencyController) : GlobalConcurrencyController :=
  match s.queue with
  | [] => s
  | id :: rest =>
      if s.activeCount < s.maxConcurrent then
        executeTask { s with queue := rest } id
      else s

/-- `run` (lines 73-95), the submission path: the task gets a fresh id; if
a slot is free it starts immediately, otherwise it is pushed at the back
of the queue.  The extra `scheduleNext()` call the source makes after
pushing is included; it is a no-op there because no slot is free. -/
def submit (s : GlobalConcurrencyController) : GlobalConcurrencyController :=
  let id := s.nextId
  let s1 := { s with nextId := id + 1 }
  if s1.activeCount < s1.maxConcurrent then
    { s1 with activeCount := s1.activeCount + 1, running := id :: s1.running,
              started := s1.started ++ [id] }
  else
    scheduleNext { s1 with queue := s1.queue ++ [id] }

/-- The `finally` blocks of `run` and `executeTask` (lines 59-65 and
79-82): on settlement of a running task, decrement the count and try to
start the next queued task. -/
def settle (s : GlobalConcurrencyController) (id : Nat) : GlobalConcurrencyController :=
  if id ∈ s.running then
    scheduleNext { s with activeCount := s.activeCount - 1, running := s.running.erase id }
  else s

/-- An externally observable event: a task submission, or the settlement
of the running task with the given id (a settlement of a task that is not
running is ignored). -/
inductive Event where
  | submit : Event
  | settle (id : Nat) : Event

/-- One controller transition. -/
def stepEvent (s : GlobalConcurrencyController) : Event → GlobalConcurrencyController
  | .submit => submit s
  | .settle id => settle s id

/-- The controller as freshly constructed with a positive finite bound.
(The constructor maps non-positive bounds to `Infinity`, under which the
bound claim is vacuous; the model covers the finite bounds.) -/
def initState (n : Nat) : GlobalConcurrencyController :=
  { maxConcurrent := n, activeCount := 0, queue := [], running := [], started := [], nextId := 0 }

/-- The inductive invariant of the controller: the count matches the
running tasks and never exceeds the bound, a non-empty queue means no
free slot, queue and start log are in submission (= id) order, everything
started precedes everything queued, and all ids are below `nextId`. -/
structure Inv (s : GlobalConcurrencyController) : Prop where
  activeEq : s.activeCount = s.running.length
  activeLe : s.activeCount ≤ s.maxConcurrent
  queueFull : s.queue ≠ [] → s.maxConcurrent ≤ s.activeCount
  queueSorted : List.Pairwise (fun a b => a < b) s.queue
  startedSorted : List.Pairwise (fun a b => a < b) s.started
  startedBeforeQueue : ∀ q ∈ s.queue, ∀ t ∈ s.started, t < q
  queueLt : ∀ q ∈ s.queue, q < s.nextId
  startedLt : ∀ t ∈ s.started, t < s.nextId

/-- The invariant without the no-free-slot-while-queued clause; this is
what holds just after a settlement decrements the count. -/
structure PreInv (s : GlobalConcurrencyController) : Prop where
  activeEq : s.activeCount = s.running.length
  activeLe : s.activeCount ≤ s.maxConcurrent
  queueFullSucc : s.queue ≠ [] → s.maxConcurrent ≤ s.activeCount + 1
  queueSorted : List.Pairwise (fun a b => a < b) s.queue
  startedSorted : List.Pairwise (fun a b => a < b) s.started
  startedBeforeQueue : ∀ q ∈ s.queue, ∀ t ∈ s.started, t < q
  queueLt : ∀ q ∈ s.queue, q < s.nextId
  startedLt : ∀ t ∈ s.started, t < s.nextId

/-- The fresh controller satisfies the invariant. -/
theorem inv_init (n : Nat) : Inv (initState n) := by
  constructor <;> simp [initState]

/-- `scheduleNext` does nothing while no slot is free. -/
theorem scheduleNext_of_full {s : GlobalConcurrencyController}
    (h : ¬ s.activeCount < s.maxConcurrent) : scheduleNext s = s := by
  unfold scheduleNext
  rcases hq : s.queue with _ | ⟨id, rest⟩
  · rfl
  · simp [h]

/-- `scheduleNext` restores the full invariant from the weakened one. -/
theorem inv_scheduleNext {t : GlobalConcurrencyController} (pre : PreInv t) :
    Inv (scheduleNext t) := by
  unfold scheduleNext
  cases hq : t.queue with
  | nil =>
      exact ⟨pre.activeEq, pre.activeLe, fun hne => absurd hq hne, pre.queueSorted,
        pre.startedSorted, pre.startedBeforeQueue, pre.queueLt, pre.startedLt⟩
  | cons q rest =>
      have hqmem : q ∈ t.queue := by rw [hq]; exact List.mem_cons_self _ _
      have hrest : ∀ p ∈ rest, p ∈ t.queue := by
        intro p hp
        rw [hq]
        exact List.mem_cons_of_mem _ hp
      have hqsorted := pre.queueSorted
      rw [hq] at hqsorted
      have hqlt : ∀ p ∈ rest, q < p := (List.pairwise_cons.mp hqsorted).1
      dsimp only
      by_cases hc : t.activeCount < t.maxConcurrent
      · rw [if_pos hc]
        unfold executeTask
        constructor
        · dsimp only
          rw [pre.activeEq]
          simp
        · dsimp only
          omega
        · dsimp only
          intro hne
          have := pre.queueFullSucc (by rw [hq]; simp)
          omega
        · exact (List.pairwise_cons.mp hqsorted).2
        · dsimp only
          simp only [List.pairwise_append, List.pairwise_cons]
          refine ⟨pre.startedSorted, by simp, ?_⟩
          simp only [List.mem_singleton]
          rintro x hx b hb
          rw [hb]
          exact pre.startedBeforeQueue q hqmem x hx
        · dsimp only
          simp only [List.mem_append, List.mem_singleton]
          rintro p hp x (hx | hb)
          · exact pre.startedBeforeQueue p (hrest p hp) x hx
          · rw [hb]
            exact hqlt p hp
        · dsimp only
          intro p hp
          exact pre.queueLt p (hrest p hp)
        · dsimp only
          simp only [List.mem_append, List.mem_singleton]
          rintro x (hx | hb)
          · exact pre.startedLt x hx
          · rw [hb]
            exact pre.queueLt q hqmem
      · rw [if_neg hc]
        exact ⟨pre.activeEq, pre.activeLe, fun _ => le_of_not_lt hc, pre.queueSorted,
          pre.startedSorted, pre.startedBeforeQueue, pre.queueLt, pre.startedLt⟩

/-- Submission preserves the invariant. -/
theorem inv_submit {s : GlobalConcurrencyController} (h : Inv s) : Inv (submit s) := by
  unfold submit
  by_cases hfree : s.activeCount < s.maxConcurrent
  · simp only [hfree, if_true]
    have hq : s.queue = [] := by
      by_contra hne
      exact absurd (h.queueFull hne) (not_le_of_lt hfree)
    constructor
    · simp [h.activeEq]
    · simpa using hfree
    · simp [hq]
    · simp [hq]
    · simp only [List.pairwise_append, List.pairwise_cons, List.mem_singleton]
      refine ⟨h.startedSorted, by simp, ?_⟩
      rintro t ht b rfl
      exact h.startedLt t ht
    · simp [hq]
    · simp [hq]
    · simp only [List.mem_append, List.mem_singleton]
      rintro t (ht | rfl)
      · exact Nat.lt_succ_of_lt (h.startedLt t ht)
      · exact Nat.lt_succ_self _
  · simp only [hfree, if_false]
    rw [scheduleNext_of_full (by simpa using hfree)]
    constructor
    · exact h.activeEq
    · exact h.activeLe
    · intro _
      exact le_of_not_lt hfree
    · simp only [List.pairwise_append, List.pairwise_cons]
      refine ⟨h.queueSorted, by simp, ?_⟩
      simp only [List.mem_singleton]
      rintro q hq b rfl
      exact h.queueLt q hq
    · exact h.startedSorted
    · simp only [List.mem_append, List.mem_singleton]
      rintro q (hq | rfl) t ht
      · exact h.startedBeforeQueue q hq t ht
      · exact h.startedLt t ht
    · simp only [List.mem_append, List.mem_singleton]
      rintro q (hq | rfl)
      · exact Nat.lt_succ_of_lt (h.queueLt q hq)
      · exact Nat.lt_succ_self _
    · intro t ht
      exact Nat.lt_succ_of_lt (h.startedLt t ht)

/-- Settlement preserves the invariant. -/
theorem inv_settle {s : GlobalConcurrencyController} (id : Nat) (h : Inv s) :
    Inv (settle s id) := by
  unfold settle
  by_cases hmem : id ∈ s.running
  · simp only [hmem, if_pos]
    have hlen : 0 < s.running.length := List.length_pos_of_mem hmem
    have herase : (s.running.erase id).length = s.running.length - 1 :=
      List.length_erase_of_mem hmem
    have hae := h.activeEq
    have hal := h.activeLe
    refine inv_scheduleNext ?_
    constructor
    · dsimp only
      rw [herase]
      omega
    · dsimp only
      omega
    · dsimp only
      intro hne
      have := h.queueFull hne
      omega
    · exact h.queueSorted
    · exact h.startedSorted
    · exact h.startedBeforeQueue
    · exact h.queueLt
    · exact h.startedLt
  · simp only [hmem, if_neg, if_false]
    exact h

/-- Every state reachable from the fresh controller satisfies the
invariant. -/
theorem inv_run (n : Nat) (evs : List Event) :
    Inv (evs.foldl stepEvent (initState n)) := by
  have hgen : ∀ (l : List Event) (s : GlobalConcurrencyController),
      Inv s → Inv (l.foldl stepEvent s) := by
    intro l
    induction l with
    | nil => intro s hs; exact hs
    | cons e rest ih =>
        intro s hs
        simp only [List.foldl_cons]
        refine ih _ ?_
        cases e with
        | submit => exact inv_submit hs
        | settle id => exact inv_settle id hs
  exact hgen evs _ (inv_init n)

/-- The transitions never change the bound. -/
theorem scheduleNext_max (s : GlobalConcurrencyController) :
    (scheduleNext s).maxConcurrent = s.maxConcurrent := by
  unfold scheduleNext
  cases hq : s.queue with
  | nil => rfl
  | cons q rest =>
      dsimp only
      by_cases hc : s.activeCount < s.maxConcurrent
      · rw [if_pos hc]; rfl
      · rw [if_neg hc]

/-- One step never changes the bound. -/
theorem stepEvent_max (s : GlobalConcurrencyController) (e : Event) :
    (stepEvent s e).maxConcurrent = s.maxConcurrent := by
  cases e with
  | submit =>
      unfold stepEvent submit
      by_cases hc : s.activeCount < s.maxConcurrent
      · simp only [hc, if_true]
      · simp only [hc, if_false]
        rw [scheduleNext_max]
  | settle id =>
      unfold stepEvent settle
      by_cases hmem : id ∈ s.running
      · simp only [hmem, if_pos]
        rw [scheduleNext_max]
      · simp only [hmem, if_neg, if_false]

/-- A run never changes the bound. -/
theorem foldl_max (evs : List Event) :
    ∀ s : GlobalConcurrencyController,
      (evs.foldl stepEvent s).maxConcurrent = s.maxConcurrent := by
  induction evs with
  | nil => intro s; rfl
  | cons e rest ih =>
      intro s
      simp only [List.foldl_cons]
      rw [ih, stepEvent_max]

/-- C7.  For every bound N and every sequence of submission and
settlement events processed through `GlobalConcurrencyController.run`,
the number of concurrently executing tasks never exceeds N (every
reachable state is covered because the event list is arbitrary), and
tasks start in FIFO submission order: the start log is strictly
increasing in submission ids, and queued tasks are dequeued from the
front only. -/
theorem claim_C7_concurrency_bound (n : Nat) (evs : List Event) :
    (evs.foldl stepEvent (initState n)).running.length ≤ n
      ∧ List.Pairwise (fun a b => a < b) (evs.foldl stepEvent (initState n)).started := by
  have h := inv_run n evs
  have hmax := foldl_max evs (initState n)
  refine ⟨?_, h.startedSorted⟩
  have hle := h.activeLe
  rw [h.activeEq, hmax] at hle
  exact hle

end GlobalConcurrencyController

/-!
## Single-flight token refresh
(index.ts, `AxiosWrapper.requestWithRefreshToken`, lines 239-272)

The code keeps an ambient `refreshTokenPromise : Promise<string> | null`.
A request that observes an access-token-expired code runs, synchronously
(JavaScript run-to-completion, no `await` before the ticket is stored):
check the field; if `null`, invoke `refreshAccessToken` and store the
wrapped promise; then `await` the stored promise.  The wrapped promise
clears the field when it settles, resolved or rejected (lines 252-261).
Each observer section is therefore atomic, and a run is an arbitrary
sequence of observer arrivals followed by the ticket settling.
-/

/-- The refresh-controller state: the stored ticket (identified by the
index of the `refreshAccessToken` call that created it), the number of
`refreshAccessToken` invocations so far, and which observers await which
ticket. -/
structure RefreshState where
  refreshTokenPromise : Option Nat
  refreshCalls : Nat
  waiters : List (Nat × Nat)

/-- One observer arriving at lines 239-267: reuse the stored ticket if
present, otherwise invoke `refreshAccessToken` (incrementing the call
count) and store the new ticket before awaiting it. -/
def observeExpiry (s : RefreshState) (obs : Nat) : RefreshState :=
  match s.refreshTokenPromise with
  | some t => { s with waiters := s.waiters ++ [(obs, t)] }
  | none =>
      { refreshTokenPromise := some s.refreshCalls,
        refreshCalls := s.refreshCalls + 1,
        waiters := s.waiters ++ [(obs, s.refreshCalls)] }

/-- A sequence of observer arrivals while the ticket does not settle. -/
def observeAll (s : RefreshState) (obsList : List Nat) : RefreshState :=
  obsList.foldl observeExpiry s

/-- Settlement of the ticket (lines 252-261): whether it resolves or
rejects, the stored ticket is cleared (`this.refreshTokenPromise = null`)
and every waiter receives the same outcome. -/
def settleTicket (s : RefreshState) (outcome : Except String String) :
    RefreshState × List (Nat × Except String String) :=
  ({ s with refreshTokenPromise := none, waiters := [] },
    s.waiters.map (fun w => (w.1, outcome)))

/-- While a ticket is stored, further observers reuse it: no further
`refreshAccessToken` call, and every new waiter awaits the same ticket. -/
theorem observeAll_some (t : Nat) :
    ∀ (l : List Nat) (s : RefreshState), s.refreshTokenPromise = some t →
      (observeAll s l).refreshTokenPromise = some t
        ∧ (observeAll s l).refreshCalls = s.refreshCalls
        ∧ (observeAll s l).waiters = s.waiters ++ l.map (fun o => (o, t)) := by
  intro l
  induction l with
  | nil => intro s hs; simp [observeAll, hs]
  | cons o rest ih =>
      intro s hs
      have hstep : observeExpiry s o = { s with waiters := s.waiters ++ [(o, t)] } := by
        unfold observeExpiry
        rw [hs]
      simp only [observeAll, List.foldl_cons] at *
      rw [hstep]
      have := ih { s with waiters := s.waiters ++ [(o, t)] } hs
      simpa using this

/-- C4.  Starting with no refresh in flight, any non-empty sequence of
requests that observe the access-token-expired code while the refresh
runs causes exactly one `refreshAccessToken` call; every observer awaits
that same single ticket; and when the ticket settles — resolved or
rejected — the stored ticket is cleared and all observers receive the
settling outcome. -/
theorem claim_C4_single_flight_refresh (c : Nat) (obsList : List Nat)
    (h : obsList ≠ []) (outcome : Except String String) :
    (observeAll ⟨none, c, []⟩ obsList).refreshCalls = c + 1
      ∧ (observeAll ⟨none, c, []⟩ obsList).refreshTokenPromise = some c
      ∧ (observeAll ⟨none, c, []⟩ obsList).waiters = obsList.map (fun o => (o, c))
      ∧ (settleTicket (observeAll ⟨none, c, []⟩ obsList) outcome).1.refreshTokenPromise = none
      ∧ (settleTicket (observeAll ⟨none, c, []⟩ obsList) outcome).2
          = obsList.map (fun o => (o, outcome)) := by
  match obsList, h with
  | o :: rest, _ =>
      have hfirst : observeExpiry ⟨none, c, []⟩ o = ⟨some c, c + 1, [(o, c)]⟩ := rfl
      have hrest := observeAll_some c rest ⟨some c, c + 1, [(o, c)]⟩ rfl
      have hall : observeAll ⟨none, c, []⟩ (o :: rest) = observeAll ⟨some c, c + 1, [(o, c)]⟩ rest := by
        simp only [observeAll, List.foldl_cons, hfirst]
      rw [hall]
      refine ⟨hrest.2.1, hrest.1, ?_, ?_, ?_⟩
      · rw [hrest.2.2]
        simp
      · simp [settleTicket]
      · simp only [settleTicket]
        rw [hrest.2.2]
        simp

/-- Witness for C4: ten concurrent observers of the expired code cause
one `refreshAccessToken` call, share ticket `0`, and all receive the
resolved token. -/
theorem claim_C4_single_flight_refresh_witness :
    (observeAll ⟨none, 0, []⟩ [1, 2, 3, 4, 5, 6, 7, 8, 9, 10]).refreshCalls = 0 + 1
      ∧ (observeAll ⟨none, 0, []⟩ [1, 2, 3, 4, 5, 6, 7, 8, 9, 10]).refreshTokenPromise = some 0
      ∧ (observeAll ⟨none, 0, []⟩ [1, 2, 3, 4, 5, 6, 7, 8, 9, 10]).waiters
          = [1, 2, 3, 4, 5, 6, 7, 8, 9, 10].map (fun o => (o, 0))
      ∧ (settleTicket (observeAll ⟨none, 0, []⟩ [1, 2, 3, 4, 5, 6, 7, 8, 9, 10])
            (Except.ok "T1")).1.refreshTokenPromise = none
      ∧ (settleTicket (observeAll ⟨none, 0, []⟩ [1, 2, 3, 4, 5, 6, 7, 8, 9, 10])
            (Except.ok "T1")).2
          = [1, 2, 3, 4, 5, 6, 7, 8, 9, 10].map (fun o => (o, Except.ok "T1")) :=
  claim_C4_single_flight_refresh 0 [1, 2, 3, 4, 5, 6, 7, 8, 9, 10] (by decide) (Except.ok "T1")

/-!
## The polling scheduler (PollingManager.ts)

A single task's lifecycle state is `PollState`; the events a run emits
are `PollEv`.  One `executePoll` iteration is modelled by
`executePollIter` with a flag saying whether `stopPolling` is called
while the iteration's HTTP request is in flight — the only point of the
iteration at which control can interleave (the rest is synchronous).
-/

/-- The per-task polling state (PollingManager.ts, lines 22-33):
`present` models membership of the entry in the `pollingTasks` map. -/
structure PollState where
  isStopped : Bool
  attempts : Nat
  timerPending : Bool
  present : Bool

/-- Observable polling events: callback invocations, timer scheduling,
map-entry removal, and the return of `stopPolling`. -/
inductive PollEv where
  | cbSuccess : PollEv
  | cbError : PollEv
  | timerSet : PollEv
  | entryDeleted : PollEv
  | stopReturned : PollEv
deriving DecidableEq

/-- `stopPolling` (lines 149-166): if the entry exists, set the stopped
flag, clear the pending timer and remove the entry. -/
def stopPolling (s : PollState) : PollState :=
  if s.present then
    { s with isStopped := true, timerPending := false, present := false }
  else s

/-- One `executePoll` iteration (lines 95-144) with bound `maxTimes`.
`stopMidFlight` says whether `stopPolling` is called while the HTTP
request is awaited; `reqFails` whether the request rejects.  Control as
in the source: the stopped flag is checked at the top of `executePoll`
(line 100) and at the start of the queued request task (line 109); the
callback invocation (lines 113-117) and the `finally` block that
increments `attempts` and schedules the next timer (lines 118-131) have
no stopped check. -/
def executePollIter (maxTimes : Nat) (stopMidFlight reqFails : Bool) (s : PollState) :
    PollState × List PollEv :=
  if s.isStopped ∨ maxTimes ≤ s.attempts then
    ({ s with present := false }, [PollEv.entryDeleted])
  else if s.isStopped then (s, [])
  else
    let stopEvs := if stopMidFlight then [PollEv.stopReturned] else []
    let s1 := if stopMidFlight then stopPolling s else s
    let cbEv := if reqFails then PollEv.cbError else PollEv.cbSuccess
    let s2 := { s1 with attempts := s1.attempts + 1 }
    if s2.attempts < maxTimes then
      ({ s2 with timerPending := true }, stopEvs ++ [cbEv, PollEv.timerSet])
    else
      ({ s2 with present := false }, stopEvs ++ [cbEv, PollEv.entryDeleted])

/-- Counterexample for C8 as stated: a fresh task (3 polls max) whose
first request is in flight when `stopPolling` returns still invokes its
success callback *after* stop has returned, and then schedules the next
timer without checking the stopped flag — the emitted trace is
`[stopReturned, cbSuccess, timerSet]`. -/
theorem claim_C8_counterexample :
    executePollIter 3 true false ⟨false, 0, false, true⟩
      = (⟨true, 1, true, false⟩, [PollEv.stopReturned, PollEv.cbSuccess, PollEv.timerSet]) := by
  rfl

/-- C8 (amended).  `stopPolling` on a present entry sets the stopped
flag, clears the pending timer and removes the entry; and every
`executePoll` iteration *entered* after stop invokes no callback and
schedules no timer (it only performs cleanup) — the stopped flag is
checked at the top of `executePoll` and at the start of the request
task.  (A request already in flight when stop returns still fires its
callback once and schedules one further timer in its `finally` block;
see the counterexample.) -/
theorem claim_C8_stop_polling (s s' : PollState) (hpresent : s.present = true)
    (hstopped : s'.isStopped = true) (maxTimes : Nat) (stopMF reqF : Bool) :
    (stopPolling s).isStopped = true
      ∧ (stopPolling s).timerPending = false
      ∧ (stopPolling s).present = false
      ∧ executePollIter maxTimes stopMF reqF s' = ({ s' with present := false }, [PollEv.entryDeleted]) := by
  refine ⟨?_, ?_, ?_, ?_⟩
  · simp [stopPolling, hpresent]
  · simp [stopPolling, hpresent]
  · simp [stopPolling, hpresent]
  · simp [executePollIter, hstopped]

/-- Witness for C8: stop the fresh running task, then the next iteration
(the stopped state left by the counterexample run) performs cleanup
only. -/
theorem claim_C8_stop_polling_witness :
    (stopPolling ⟨false, 0, true, true⟩).isStopped = true
      ∧ (stopPolling ⟨false, 0, true, true⟩).timerPending = false
      ∧ (stopPolling ⟨false, 0, true, true⟩).present = false
      ∧ executePollIter 3 false false ⟨true, 1, true, false⟩
          = ({ isStopped := true, attempts := 1, timerPending := true, present := false },
              [PollEv.entryDeleted]) :=
  claim_C8_stop_polling ⟨false, 0, true, true⟩ ⟨true, 1, true, false⟩ rfl rfl 3 false false

/-!
## The retry policy (index.ts, `AxiosWrapper.retryRequest`, lines 315-324)
-/

/-- `this.options.retryTimes || DEFAULT_MAX_RETRIES` (index.ts, line 318):
JavaScript `||` replaces a configured `0` (and absence) by the default 3. -/
def effRetryTimes (retryTimes : Option Nat) : Nat :=
  match retryTimes with
  | some t => if t = 0 then 3 else t
  | none => 3

/-- `this.options.retryDelay || DEFAULT_RETRY_DELAY` (index.ts, line 320):
a configured `0` (and absence) falls back to 1000 ms. -/
def effRetryDelay (retryDelay : Option Nat) : Nat :=
  match retryDelay with
  | some d => if d = 0 then 1000 else d
  | none => 1000

/-- Observable events of a retried request: a send of the request, the
global `onError` callback, an admission through the
ConcurrencyController, and the retry-delay timer. -/
inductive REv where
  | attempt (idx : Nat) : REv
  | onErrorCb : REv
  | ccRun : REv
  | wait (ms : Nat) : REv
deriving DecidableEq

/-- Whether an event is a request send. -/
def isAttempt : REv → Bool
  | .attempt _ => true
  | _ => false

/-- Number of request sends in a trace. -/
def countAttempts (evs : List REv) : Nat := evs.countP isAttempt

/-- The failure loop around `AxiosWrapper.retryRequest` (index.ts, lines
315-324) together with the response rejection handler that re-enters it
(lines 183-185).  Attempt `idx` is sent; `tr idx = some e` means it fails
with error `e`, `none` that it succeeds.  On failure the handler reports
the error (`onError?.(err)`) and runs `retryRequest` through the
ConcurrencyController; `retryRequest` then compares the `__retryCount`
stored on the request descriptor (`count` here) against the retry bound:
below the bound it increments the counter, waits `retryDelay`, and
re-sends through the ConcurrencyController; otherwise it throws the last
error.  `budget` is `retryTimes - __retryCount`; the source's guard
`config.__retryCount < retryTimes` holds exactly when the budget is
positive.  Results: the event trace, the final error (`none` on success),
and the final `__retryCount`. -/
def retryGo (rd : Nat) (tr : Nat → Option Nat) :
    Nat → Nat → Nat → List REv × Option Nat × Nat
  | 0, count, idx =>
      match tr idx with
      | none => ([REv.attempt idx], none, count)
      | some e => ([REv.attempt idx, REv.onErrorCb, REv.ccRun], some e, count)
  | b + 1, count, idx =>
      match tr idx with
      | none => ([REv.attempt idx], none, count)
      | some _ =>
          (REv.attempt idx :: REv.onErrorCb :: REv.ccRun :: REv.wait rd :: REv.ccRun ::
              (retryGo rd tr b (count + 1) (idx + 1)).1,
            (retryGo rd tr b (count + 1) (idx + 1)).2)

/-- A fresh failing request processed with the given retry options
(`__retryCount` starts absent, i.e. `|| 0` makes it 0). -/
def runWithRetry (retryTimes retryDelay : Option Nat) (tr : Nat → Option Nat) :
    List REv × Option Nat × Nat :=
  retryGo (effRetryDelay retryDelay) tr (effRetryTimes retryTimes) 0 0

/-- Behaviour of the retry loop: at least one and at most `budget + 1`
sends; every wait is the effective delay; the final counter counts the
retries; a surfaced error is the last attempt's error; every retry went
through the ConcurrencyController. -/
theorem retryGo_spec (rd : Nat) (tr : Nat → Option Nat) :
    ∀ (budget count idx : Nat),
      1 ≤ countAttempts (retryGo rd tr budget count idx).1
      ∧ countAttempts (retryGo rd tr budget count idx).1 ≤ budget + 1
      ∧ (∀ ms, REv.wait ms ∈ (retryGo rd tr budget count idx).1 → ms = rd)
      ∧ (retryGo rd tr budget count idx).2.2
          = count + (countAttempts (retryGo rd tr budget count idx).1 - 1)
      ∧ (∀ e, (retryGo rd tr budget count idx).2.1 = some e →
            tr (idx + (countAttempts (retryGo rd tr budget count idx).1 - 1)) = some e)
      ∧ countAttempts (retryGo rd tr budget count idx).1 - 1
          ≤ (retryGo rd tr budget count idx).1.count REv.ccRun := by
  intro budget
  induction budget with
  | zero =>
      intro count idx
      cases htr : tr idx with
      | none =>
          simp [retryGo, htr, countAttempts, isAttempt, List.countP_cons]
      | some e =>
          refine ⟨?_, ?_, ?_, ?_, ?_, ?_⟩ <;>
            simp [retryGo, htr, countAttempts, isAttempt, List.countP_cons, List.count_cons]
  | succ b ih =>
      intro count idx
      cases htr : tr idx with
      | none =>
          simp [retryGo, htr, countAttempts, isAttempt, List.countP_cons]
      | some e =>
          obtain ⟨h1, h2, h3, h4, h5, h6⟩ := ih (count + 1) (idx + 1)
          have hunfold : retryGo rd tr (b + 1) count idx
              = (REv.attempt idx :: REv.onErrorCb :: REv.ccRun :: REv.wait rd :: REv.ccRun ::
                    (retryGo rd tr b (count + 1) (idx + 1)).1,
                  (retryGo rd tr b (count + 1) (idx + 1)).2) := by
            simp only [retryGo, htr]
          have hA : countAttempts (retryGo rd tr (b + 1) count idx).1
              = 1 + countAttempts (retryGo rd tr b (count + 1) (idx + 1)).1 := by
            rw [hunfold]
            simp [countAttempts, List.countP_cons, isAttempt]
            omega
          refine ⟨?_, ?_, ?_, ?_, ?_, ?_⟩
          · omega
          · omega
          · intro ms hms
            rw [hunfold] at hms
            simp only [List.mem_cons] at hms
            rcases hms with h | h | h | h | h | h
            · exact absurd h (by simp)
            · exact absurd h (by simp)
            · exact absurd h (by simp)
            · cases h; rfl
            · exact absurd h (by simp)
            · exact h3 ms h
          · rw [hunfold]
            have hB : countAttempts (REv.attempt idx :: REv.onErrorCb :: REv.ccRun ::
                REv.wait rd :: REv.ccRun :: (retryGo rd tr b (count + 1) (idx + 1)).1)
                = 1 + countAttempts (retryGo rd tr b (count + 1) (idx + 1)).1 := by
              simp [countAttempts, List.countP_cons, isAttempt]
              omega
            simp only
            rw [h4, hB]
            omega
          · intro e' he'
            rw [hunfold] at he'
            simp only at he'
            have := h5 e' he'
            rw [hA]
            have harith : idx + (1 + countAttempts (retryGo rd tr b (count + 1) (idx + 1)).1 - 1)
                = idx + 1 + (countAttempts (retryGo rd tr b (count + 1) (idx + 1)).1 - 1) := by
              omega
            rw [harith]
            exact this
          · rw [hunfold]
            have hB : countAttempts (REv.attempt idx :: REv.onErrorCb :: REv.ccRun ::
                REv.wait rd :: REv.ccRun :: (retryGo rd tr b (count + 1) (idx + 1)).1)
                = 1 + countAttempts (retryGo rd tr b (count + 1) (idx + 1)).1 := by
              simp [countAttempts, List.countP_cons, isAttempt]
              omega
            have hC : List.count REv.ccRun (REv.attempt idx :: REv.onErrorCb :: REv.ccRun ::
                REv.wait rd :: REv.ccRun :: (retryGo rd tr b (count + 1) (idx + 1)).1)
                = 2 + List.count REv.ccRun (retryGo rd tr b (count + 1) (idx + 1)).1 := by
              simp [List.count_cons]
              omega
            simp only
            rw [hB, hC]
            omega


/-- C9 (amended).  For `retry-times = r ≥ 1` and `retry-delay = d`: at
most `1 + r` attempts are made; consecutive attempts are separated by a
wait of at least `d` milliseconds; the per-request `__retryCount` on the
descriptor is incremented once per retry attempt; re-submission goes
through the ConcurrencyController; and after exhaustion the last observed
error is surfaced to the caller.  (`retry-times = 0` is excluded: the
source's `retryTimes || 3` treats it as unset — see the counterexample.) -/
theorem claim_C9_retry_bound (r d : Nat) (hr : 1 ≤ r) (tr : Nat → Option Nat) :
    countAttempts (runWithRetry (some r) (some d) tr).1 ≤ 1 + r
      ∧ (∀ ms, REv.wait ms ∈ (runWithRetry (some r) (some d) tr).1 → d ≤ ms)
      ∧ (runWithRetry (some r) (some d) tr).2.2
          = countAttempts (runWithRetry (some r) (some d) tr).1 - 1
      ∧ (∀ e, (runWithRetry (some r) (some d) tr).2.1 = some e →
            tr (countAttempts (runWithRetry (some r) (some d) tr).1 - 1) = some e)
      ∧ countAttempts (runWithRetry (some r) (some d) tr).1 - 1
          ≤ (runWithRetry (some r) (some d) tr).1.count REv.ccRun := by
  have ht : effRetryTimes (some r) = r := by
    simp only [effRetryTimes]
    rw [if_neg (by omega)]
  have hd : d ≤ effRetryDelay (some d) := by
    simp only [effRetryDelay]
    by_cases h0 : d = 0
    · rw [if_pos h0]; omega
    · rw [if_neg h0]
  obtain ⟨h1, h2, h3, h4, h5, h6⟩ := retryGo_spec (effRetryDelay (some d)) tr r 0 0
  unfold runWithRetry
  rw [ht]
  refine ⟨by omega, ?_, by simpa using h4, ?_, h6⟩
  · intro ms hms
    rw [h3 ms hms]
    exact hd
  · intro e he
    have := h5 e he
    simpa using this

/-- Counterexample for C9 as stated: with `retry-times = 0` an
always-failing request makes 4 attempts (the `||` default of 3 retries),
not at most `1 + 0`. -/
theorem claim_C9_counterexample :
    countAttempts (runWithRetry (some 0) (some 100) (fun _ => some 7)).1 = 4
      ∧ ¬ countAttempts (runWithRetry (some 0) (some 100) (fun _ => some 7)).1 ≤ 1 + 0 := by
  decide

/-- Witness for C9: `retry-times = 3, retry-delay = 100` on an
always-failing transport makes at most 4 attempts and counts its retries
on the descriptor. -/
theorem claim_C9_retry_bound_witness :
    countAttempts (runWithRetry (some 3) (some 100) (fun _ => some 7)).1 ≤ 1 + 3
      ∧ (runWithRetry (some 3) (some 100) (fun _ => some 7)).2.2
          = countAttempts (runWithRetry (some 3) (some 100) (fun _ => some 7)).1 - 1 :=
  ⟨(claim_C9_retry_bound 3 100 (by decide) (fun _ => some 7)).1,
    (claim_C9_retry_bound 3 100 (by decide) (fun _ => some 7)).2.2.1⟩


/-!
## The request pipeline (index.ts, `AxiosWrapper.instanceHandler`,
lines 93-196, and `requestWithRefreshToken`, lines 198-295)

axios 1.x builds the promise chain
`(reqF, reqR), (dispatch, undefined), (respF, respR), (userF, userR)`:
a rejection thrown inside the wrapper's request handler `reqF` skips
`dispatch` and lands in the wrapper's response rejection handler `respR`;
a value returned (or resolved) by `respR` continues into the user's
response success handler `userF`; a rejection thrown inside the wrapper's
response success handler `respF` (or rethrown by `respR`) lands in the
user's response rejection handler `userR`.  The model sequences those
handlers explicitly.  Each run returns `(result, state, event trace)`.
The per-call debounce/throttle outcome is abstracted by the
`debounceCancels` / `throttleCancels` flags (the pipeline only observes
whether the awaited coalescer future rejects; its internals are the
subject of C6).
-/

/-- The request config as the pipeline handles it: cache-key fields,
`Authorization` header, and the `__gotAccessToken` / `__retryCount`
markers the pipeline mutates. -/
structure PCfg where
  key : ReqConfig
  authHeader : Option String
  gotAccessToken : Bool
  retryCount : Nat

/-- A response: `res.data.code`, the rest of the body, and `res.config`. -/
structure PResp where
  code : Option Int
  body : Json
  config : PCfg

/-- The errors a pipeline run can settle with. -/
inductive PErr where
  | cancelled (kind : CancelKind) : PErr
  | transport (e : Nat) (cfg : PCfg) : PErr
  | business (code : Int) : PErr
  | refreshExpired : PErr
  | alreadyRetried : PErr
  | noRefreshFn : PErr
  | invalidRefreshToken : PErr
  | typeErr : PErr
  | outOfFuel : PErr

/-- Observable pipeline events, in execution order. -/
inductive PEv where
  | tokenInject : PEv
  | cacheRead (hit : Bool) : PEv
  | debouncePass : PEv
  | throttlePass : PEv
  | transportSend : PEv
  | cacheWrite : PEv
  | refreshCall : PEv
  | onRefreshExpiredCb : PEv
  | onErrorCb : PEv
  | ccRun : PEv
  | retryWait : PEv
  | userRespSuccess : PEv
  | userRespError : PEv
deriving DecidableEq

/-- What the transport does on its n-th invocation. -/
inductive TAct where
  | respond (code : Option Int) (body : Json) : TAct
  | fail (e : Nat) : TAct

/-- The wrapper options the pipeline reads (index.ts `WrapperOptions`),
plus the abstracted per-call coalescer outcomes. -/
structure POpts where
  enableCache : Bool
  cacheTTL : Option Nat
  enableDebounce : Bool
  debounceCancels : Bool
  enableThrottle : Bool
  throttleCancels : Bool
  enableRetry : Bool
  retryTimes : Option Nat
  retryDelay : Option Nat
  enableDoubleToken : Bool
  accessTokenExpiredCodes : List Int
  refreshTokenExpiredCodes : List Int
  hasRefreshFn : Bool
  refreshResult : Option String
  tokenProvider : Option String
  hasUserResponse : Bool
  hasOnError : Bool

/-- Mutable pipeline state: the cache store, the clock, and the number of
transport invocations so far. -/
structure PState where
  cache : List (String × CacheEntry PResp)
  now : Nat
  calls : Nat

/-- The type of a full re-entry into the pipeline (`this.instance(...)`). -/
abbrev Resend := PCfg → PState → Except PErr PResp × PState × List PEv

/-- `AxiosWrapper.retryRequest` (index.ts, lines 315-324) as invoked from
the rejection handler: `err.config` is read — for the library's Cancelled
errors no config is attached, so `config.__retryCount` throws a
`TypeError`; for transport errors, below the bound the counter on the
descriptor is incremented, the delay elapses and the request re-enters
the full pipeline through the ConcurrencyController; at the bound the
error is rethrown. -/
def retryRequestM (o : POpts) (resend : Resend) (err : PErr) (st : PState) :
    Except PErr PResp × PState × List PEv :=
  match err with
  | PErr.transport _ cfg =>
      if cfg.retryCount < effRetryTimes o.retryTimes then
        let r := resend { cfg with retryCount := cfg.retryCount + 1 } st
        (r.1, r.2.1, [PEv.retryWait, PEv.ccRun] ++ r.2.2)
      else (Except.error err, st, [])
  | _ => (Except.error PErr.typeErr, st, [])

/-- The wrapper's response rejection handler (index.ts, lines 180-187)
for non-`__fromCache` errors, followed by the user response pair: it
reports every error to `onError` and, when retry is enabled, feeds the
error into `retryRequest` through the ConcurrencyController; a
successful retry resolves into the user success handler, anything else
rejects into the user error handler. -/
def respOnRejected (o : POpts) (resend : Resend) (err : PErr) (st : PState) :
    Except PErr PResp × PState × List PEv :=
  let evErr : List PEv := if o.hasOnError then [PEv.onErrorCb] else []
  if o.enableRetry then
    let r := retryRequestM o resend err st
    match r.1 with
    | Except.ok v =>
        (Except.ok v, r.2.1,
          evErr ++ [PEv.ccRun] ++ r.2.2
            ++ (if o.hasUserResponse then [PEv.userRespSuccess] else []))
    | Except.error e =>
        (Except.error e, r.2.1,
          evErr ++ [PEv.ccRun] ++ r.2.2
            ++ (if o.hasUserResponse then [PEv.userRespError] else []))
  else
    (Except.error err, st,
      evErr ++ (if o.hasUserResponse then [PEv.userRespError] else []))

/-- The header rewrite of index.ts lines 275-281: mark the config as
retried (`__gotAccessToken`) and set `Authorization: Bearer <newToken>`. -/
def refreshedCfg (cfg : PCfg) (tok : String) : PCfg :=
  { cfg with gotAccessToken := true, authHeader := some ("Bearer " ++ tok) }

/-- `AxiosWrapper.requestWithRefreshToken` (index.ts, lines 198-295):
non-token codes pass through; a refresh-expired code invokes the
side-effect and fails terminally; an access-expired code marks the
config, refreshes (single-flight is the subject of C4; here the call is
sequential), and on success re-sends the original config — with
`Authorization` rewritten — through `this.instance(originalConfig)`,
i.e. through the full pipeline, not directly via the transport. -/
def requestWithRefreshTokenM (o : POpts) (resend : Resend) (res : PResp) (st : PState) :
    Except PErr PResp × PState × List PEv :=
  match res.code with
  | none => (Except.ok res, st, [])
  | some c =>
      if c ∈ o.refreshTokenExpiredCodes then
        (Except.error PErr.refreshExpired, st, [PEv.onRefreshExpiredCb])
      else if c ∈ o.accessTokenExpiredCodes then
        if res.config.gotAccessToken then (Except.error PErr.alreadyRetried, st, [])
        else if ¬ o.hasRefreshFn then (Except.error PErr.noRefreshFn, st, [])
        else
          match o.refreshResult with
          | none =>
              (Except.error PErr.invalidRefreshToken, st,
                [PEv.refreshCall, PEv.onRefreshExpiredCb])
          | some tok =>
              if tok = "" then
                (Except.error PErr.invalidRefreshToken, st,
                  [PEv.refreshCall, PEv.onRefreshExpiredCb])
              else
                let r := resend (refreshedCfg res.config tok) st
                (r.1, r.2.1, PEv.refreshCall :: r.2.2)
      else (Except.ok res, st, [])

/-- The wrapper's response success handler (index.ts, lines 160-179)
followed by the user response pair.  First action: the cache write (lines
161-163) — before the double-token stage, before `responseCallback`, and
before the user response middleware.  With double-token enabled the
handler returns `await requestWithRefreshToken(res)` immediately (line
165), skipping the business-code check; its rejections skip to the user
response rejection handler.  `responseHandler`/`codeHandlers` are not
configured in this model, so `responseCallback` falls through to the
business-code check (lines 171-176). -/
def respOnFulfilled (o : POpts) (resend : Resend) (res : PResp) (st : PState) :
    Except PErr PResp × PState × List PEv :=
  let stw := if o.enableCache
    then { st with cache := CacheManager.set st.cache res.config.key res o.cacheTTL st.now }
    else st
  let evW : List PEv := if o.enableCache then [PEv.cacheWrite] else []
  if o.enableDoubleToken then
    let r := requestWithRefreshTokenM o resend res stw
    match r.1 with
    | Except.ok v =>
        (Except.ok v, r.2.1,
          evW ++ r.2.2 ++ (if o.hasUserResponse then [PEv.userRespSuccess] else []))
    | Except.error e =>
        (Except.error e, r.2.1,
          evW ++ r.2.2 ++ (if o.hasUserResponse then [PEv.userRespError] else []))
  else
    match res.code with
    | some c =>
        if c ≠ 0 ∧ c ≠ 200 then
          (Except.error (PErr.business c), stw,
            evW ++ (if o.hasUserResponse then [PEv.userRespError] else []))
        else
          (Except.ok res, stw,
            evW ++ (if o.hasUserResponse then [PEv.userRespSuccess] else []))
    | none =>
        (Except.ok res, stw,
          evW ++ (if o.hasUserResponse then [PEv.userRespSuccess] else []))

/-- The pipeline after the cache stage: debounce, throttle, dispatch,
and the response-side handlers.  A coalescer rejection (a Cancelled
error thrown inside the wrapper's request handler) skips the dispatch
and lands in the wrapper's response rejection handler. -/
def instanceAfterCache (o : POpts) (tr : Nat → TAct) (resend : Resend)
    (cfg : PCfg) (st : PState) (evs : List PEv) :
    Except PErr PResp × PState × List PEv :=
  if o.enableDebounce ∧ o.debounceCancels then
    let r := respOnRejected o resend (PErr.cancelled CancelKind.debounce) st
    (r.1, r.2.1, evs ++ r.2.2)
  else
    let evs1 := evs ++ (if o.enableDebounce then [PEv.debouncePass] else [])
    if o.enableThrottle ∧ o.throttleCancels then
      let r := respOnRejected o resend (PErr.cancelled CancelKind.throttle) st
      (r.1, r.2.1, evs1 ++ r.2.2)
    else
      let evs2 := evs1 ++ (if o.enableThrottle then [PEv.throttlePass] else [])
      let stSend := { st with calls := st.calls + 1 }
      match tr st.calls with
      | TAct.fail e =>
          let r := respOnRejected o resend (PErr.transport e cfg) stSend
          (r.1, r.2.1, evs2 ++ [PEv.transportSend] ++ r.2.2)
      | TAct.respond code body =>
          let r := respOnFulfilled o resend { code := code, body := body, config := cfg } stSend
          (r.1, r.2.1, evs2 ++ [PEv.transportSend] ++ r.2.2)

/-- One call of `this.instance(config)`: the full interceptor chain of
`instanceHandler`.  The wrapper request handler injects the token (lines
115-119) and performs the cache lookup (lines 120-134); a hit rejects the
`__fromCache` fake response, which the response rejection handler (line
181) resolves with the cached value, so it continues into the user
response success handler — and in particular reaches neither the
transport nor the cache write.  `fuel` bounds the pipeline re-entries
made by the refresh and retry stages (each re-entry consumes one unit;
a JavaScript run re-enters finitely often for the same reason). -/
def instanceRun : Nat → POpts → (Nat → TAct) → PCfg → PState →
    Except PErr PResp × PState × List PEv
  | 0, _, _, _, st => (Except.error PErr.outOfFuel, st, [])
  | fuel + 1, o, tr, cfg, st =>
      let resend := instanceRun fuel o tr
      let cfg1 := match o.tokenProvider with
        | some t => { cfg with authHeader := some ("Bearer " ++ t) }
        | none => cfg
      let evs0 : List PEv := match o.tokenProvider with
        | some _ => [PEv.tokenInject]
        | none => []
      match (if o.enableCache then some (CacheManager.get st.cache cfg1.key st.now) else none) with
      | some (some v, cache') =>
          (Except.ok v, { st with cache := cache' },
            evs0 ++ [PEv.cacheRead true]
              ++ (if o.hasUserResponse then [PEv.userRespSuccess] else []))
      | some (none, cache') =>
          instanceAfterCache o tr resend cfg1 { st with cache := cache' }
            (evs0 ++ [PEv.cacheRead false])
      | none => instanceAfterCache o tr resend cfg1 st evs0

/-- A concrete request: `GET /x`, no params, no body. -/
def reqX : ReqConfig := ⟨some "get", some "/x", none, none⟩

/-- The corresponding fresh pipeline config. -/
def cfgX : PCfg := ⟨reqX, none, false, 0⟩

/-- Empty cache, time 0, no transport calls yet. -/
def stEmpty : PState := ⟨[], 0, 0⟩

/-- Options for the C2 scenario: debounce enabled and cancelling this
call, retry enabled, a global `onError` and a user response interceptor
configured; everything else off. -/
def optsCancelRetry : POpts :=
  { enableCache := false, cacheTTL := none, enableDebounce := true,
    debounceCancels := true, enableThrottle := false, throttleCancels := false,
    enableRetry := true, retryTimes := none, retryDelay := none,
    enableDoubleToken := false, accessTokenExpiredCodes := [],
    refreshTokenExpiredCodes := [], hasRefreshFn := false, refreshResult := none,
    tokenProvider := none, hasUserResponse := true, hasOnError := true }

/-- C2 (code evaluated at the failing input).  A request cancelled by
debounce, with retry enabled and `onError` configured: the wrapper's
response rejection handler (index.ts, lines 180-187) has no
`isCancel` guard, so it *reports the Cancelled error to the global
`onError` callback* and *feeds it into the retry stage* through the
ConcurrencyController; `retryRequest` then reads `err.config.__retryCount`
of an error that carries no config and throws a `TypeError`, which is what
the caller receives — the Cancelled error neither bypasses the two stages
nor propagates unchanged.  (The `InterceptorManager.attachInterceptors`
revisions guard exactly this with `isCancelError`, labelled a fix.) -/
theorem claim_C2_cancelled_error_eval :
    instanceRun 2 optsCancelRetry (fun _ => TAct.fail 0) cfgX stEmpty
      = (Except.error PErr.typeErr, stEmpty,
          [PEv.onErrorCb, PEv.ccRun, PEv.userRespError]) := by
  rfl

/-- Options for the C3 scenarios: cache enabled, a user response
interceptor configured, everything else off. -/
def optsCacheOnly : POpts :=
  { enableCache := true, cacheTTL := none, enableDebounce := false,
    debounceCancels := false, enableThrottle := false, throttleCancels := false,
    enableRetry := false, retryTimes := none, retryDelay := none,
    enableDoubleToken := false, accessTokenExpiredCodes := [],
    refreshTokenExpiredCodes := [], hasRefreshFn := false, refreshResult := none,
    tokenProvider := none, hasUserResponse := true, hasOnError := false }

/-- The successful response `GET /x` produces in the C3 scenario. -/
def respOkX : PResp := { code := none, body := Json.str "ok", config := cfgX }

/-- Counterexample for C3 as stated: on a cache miss the cache write
(`cacheManager.set`, index.ts lines 161-163) is the *first* action of the
wrapper's response success handler — the trace shows `cacheWrite` strictly
before the user response middleware runs, contradicting "the cache write
occurs only after response-side middleware completes". -/
theorem claim_C3_counterexample :
    (instanceRun 2 optsCacheOnly (fun _ => TAct.respond none (Json.str "ok")) cfgX stEmpty).2.2
        = [PEv.cacheRead false, PEv.transportSend, PEv.cacheWrite, PEv.userRespSuccess]
      ∧ ∃ l₁ l₂,
          (instanceRun 2 optsCacheOnly (fun _ => TAct.respond none (Json.str "ok")) cfgX stEmpty).2.2
              = l₁ ++ PEv.cacheWrite :: l₂
            ∧ PEv.userRespSuccess ∈ l₂ :=
  ⟨rfl, [PEv.cacheRead false, PEv.transportSend], [PEv.userRespSuccess], rfl, by decide⟩

/-- C3 (amended).  With caching enabled: a request whose key is present
and unexpired short-circuits — the transport is not called, no cache
write happens, and the cached value is emitted on the success path,
traversing the user response-side middleware (without any from-cache
marker: the resolved value is the stored response itself).  On a miss,
the response is cached only for non-hit responses, but the write is the
first step of the wrapper's response handling, *before* user
response-side middleware runs. -/
theorem claim_C3_cache_hit_short_circuit (f : Nat) (o : POpts) (st : PState)
    (cfg : PCfg) (tr : Nat → TAct)
    (hcache : o.enableCache = true) (hur : o.hasUserResponse = true)
    (htp : o.tokenProvider = none) :
    (∀ v cache', CacheManager.get st.cache cfg.key st.now = (some v, cache') →
        instanceRun (f + 1) o tr cfg st
          = (Except.ok v, { st with cache := cache' },
              [PEv.cacheRead true, PEv.userRespSuccess]))
      ∧ (∀ cache' body, CacheManager.get st.cache cfg.key st.now = (none, cache') →
          o.enableDebounce = false → o.enableThrottle = false →
          o.enableDoubleToken = false → tr st.calls = TAct.respond none body →
          instanceRun (f + 1) o tr cfg st
            = (Except.ok { code := none, body := body, config := cfg },
                { st with
                    cache := CacheManager.set cache' cfg.key
                      { code := none, body := body, config := cfg } o.cacheTTL st.now,
                    calls := st.calls + 1 },
                [PEv.cacheRead false, PEv.transportSend, PEv.cacheWrite,
                  PEv.userRespSuccess])) := by
  constructor
  · intro v cache' hget
    simp [instanceRun, htp, hcache, hget, hur]
  · intro cache' body hget hdb hth hdt htr
    simp [instanceRun, instanceAfterCache, respOnFulfilled, htp, hcache, hget,
      hdb, hth, hdt, htr, hur]

/-- A state whose cache already holds the `GET /x` response. -/
def stWithX : PState := ⟨[("get:/x::", ⟨respOkX, none⟩)], 0, 0⟩

/-- Witness for C3: with the `GET /x` response cached, the run
short-circuits to the cached response through the user middleware. -/
theorem claim_C3_cache_hit_short_circuit_witness :
    instanceRun 1 optsCacheOnly (fun _ => TAct.fail 0) cfgX stWithX
      = (Except.ok respOkX, { stWithX with cache := stWithX.cache },
          [PEv.cacheRead true, PEv.userRespSuccess]) :=
  (claim_C3_cache_hit_short_circuit 0 optsCacheOnly stWithX cfgX (fun _ => TAct.fail 0)
      rfl rfl rfl).1 respOkX stWithX.cache rfl

/-- Options for the C5 scenario: cache and dual-token mode enabled,
access-expiry code 401, refresh succeeding with token `T1`. -/
def optsDoubleTokenCache : POpts :=
  { enableCache := true, cacheTTL := none, enableDebounce := false,
    debounceCancels := false, enableThrottle := false, throttleCancels := false,
    enableRetry := false, retryTimes := none, retryDelay := none,
    enableDoubleToken := true, accessTokenExpiredCodes := [401],
    refreshTokenExpiredCodes := [4011], hasRefreshFn := true,
    refreshResult := some "T1", tokenProvider := none, hasUserResponse := false,
    hasOnError := false }

/-- A transport that always answers with the access-expired code. -/
def trExpired : Nat → TAct := fun _ => TAct.respond (some 401) (Json.str "expired")

/-- The expired-code response for `GET /x`. -/
def respExpiredX : PResp := { code := some 401, body := Json.str "expired", config := cfgX }

/-- Counterexample for C5 as stated: after the successful refresh the
original request is re-sent with `await this.instance(originalConfig)`
(index.ts, line 285) — through the *full pipeline*, not directly via the
transport.  Concretely, with caching enabled the expired-code response
was already cached (the write precedes the double-token stage), so the
re-send performs a second cache read, hits, and returns the stale
expired-code response; the transport is reached exactly once. -/
theorem claim_C5_counterexample :
    instanceRun 2 optsDoubleTokenCache trExpired cfgX stEmpty
        = (Except.ok respExpiredX,
            { cache := [("get:/x::", ⟨respExpiredX, none⟩)], now := 0, calls := 1 },
            [PEv.cacheRead false, PEv.transportSend, PEv.cacheWrite,
              PEv.refreshCall, PEv.cacheRead true])
      ∧ (∃ l₁ l₂,
          (instanceRun 2 optsDoubleTokenCache trExpired cfgX stEmpty).2.2
              = l₁ ++ PEv.refreshCall :: l₂
            ∧ PEv.cacheRead true ∈ l₂)
      ∧ (instanceRun 2 optsDoubleTokenCache trExpired cfgX stEmpty).2.2.count
          PEv.transportSend = 1 :=
  ⟨rfl,
    ⟨[PEv.cacheRead false, PEv.transportSend, PEv.cacheWrite], [PEv.cacheRead true],
      rfl, by decide⟩,
    by decide⟩

/-- C5 (amended).  After a successful token refresh the original request
is re-sent with its `Authorization` header rewritten to the new token —
but through the full `this.instance` pipeline (a `Resend`), not directly
via the transport: the re-send is again subject to the request-side
stages, including cache lookup and debounce. -/
theorem claim_C5_refresh_resend (o : POpts) (resend : Resend) (res : PResp)
    (st : PState) (c : Int) (tok : String)
    (hcode : res.code = some c)
    (hacc : c ∈ o.accessTokenExpiredCodes)
    (hnr : c ∉ o.refreshTokenExpiredCodes)
    (hgot : res.config.gotAccessToken = false)
    (hfn : o.hasRefreshFn = true)
    (hres : o.refreshResult = some tok) (htok : tok ≠ "") :
    requestWithRefreshTokenM o resend res st
      = ((resend (refreshedCfg res.config tok) st).1,
          (resend (refreshedCfg res.config tok) st).2.1,
          PEv.refreshCall :: (resend (refreshedCfg res.config tok) st).2.2)
      ∧ (refreshedCfg res.config tok).authHeader = some ("Bearer " ++ tok) := by
  constructor
  · simp [requestWithRefreshTokenM, hcode, hacc, hnr, hgot, hfn, hres, htok]
  · rfl

/-- The pipeline state right after the expired response was cached. -/
def stAfterWrite : PState := ⟨[("get:/x::", ⟨respExpiredX, none⟩)], 0, 1⟩

/-- Witness for C5: in the concrete scenario the refresh hand-off equals
a full pipeline re-entry with `Authorization: Bearer T1`, which here hits
the cache. -/
theorem claim_C5_refresh_resend_witness :
    requestWithRefreshTokenM optsDoubleTokenCache
        (instanceRun 1 optsDoubleTokenCache trExpired) respExpiredX stAfterWrite
      = (Except.ok respExpiredX, stAfterWrite, [PEv.refreshCall, PEv.cacheRead true]) :=
  ((claim_C5_refresh_resend optsDoubleTokenCache
      (instanceRun 1 optsDoubleTokenCache trExpired) respExpiredX stAfterWrite
      401 "T1" rfl (by decide) (by decide) rfl rfl rfl (by decide)).1).trans rfl

end LaniaTools
